import Mathlib

/-!
Verification of the mini-express-forum application (Express + Prisma).

The route module `forum.js` is shallowly embedded below: the persistent
store (forums / threads / replies tables) becomes an explicit `Store`
record, each route handler becomes a pure function on it, and the SQL /
Prisma queries it issues (filter, order-by, limit, group-by, aggregate)
are modelled by executable list operations.  `linkify` from
`src/utils/linkfy.js` is embedded as a scanner over character lists.
-/

/-! ## JavaScript-level helpers -/

/-- The character class `\s` of the JavaScript regexp engine (also the set
trimmed by `String.prototype.trim`): ASCII whitespace, NBSP, the Unicode
space separators, line/paragraph separators and the BOM. -/
def jsWhitespace (c : Char) : Bool :=
  decide (c.toNat ∈ [9, 10, 11, 12, 13, 32, 0xA0, 0x1680, 0x2028, 0x2029,
    0x202F, 0x205F, 0x3000, 0xFEFF]) ||
  decide (0x2000 ≤ c.toNat ∧ c.toNat ≤ 0x200A)

/-- Strip leading and trailing JS whitespace from a character list. -/
def trimChars (l : List Char) : List Char :=
  ((l.dropWhile jsWhitespace).reverse.dropWhile jsWhitespace).reverse

/-- `text.trim()` of JavaScript. -/
def jsTrim (s : String) : String :=
  String.mk (trimChars s.toList)

/-- `Math.max` on integers. -/
def jsMaxI (a b : Int) : Int :=
  if a < b then b else a

/-- `Math.max` on non-negative integers. -/
def jsMaxN (a b : Nat) : Nat :=
  if a < b then b else a

/-- `x || 1` for an integer-valued JS number `x` (only `0` is falsy). -/
def jsOrOne (p : Int) : Int :=
  if p = 0 then 1 else p

/-- `Math.ceil(n / m)` for natural `n` and positive natural `m`. -/
def jsCeilDiv (n m : Nat) : Nat :=
  (n + m - 1) / m

/-- Lower-case a character list (models `mode: "insensitive"` matching). -/
def lowList (l : List Char) : List Char :=
  l.map Char.toLower

/-- Substring occurrence on character lists. -/
def containsSub (hay pat : List Char) : Bool :=
  hay.tails.any (fun t => decide (t.take pat.length = pat))

/-- Prisma `contains … mode: "insensitive"`: case-insensitive substring. -/
def containsCI (hay pat : String) : Bool :=
  containsSub (lowList hay.toList) (lowList pat.toList)

/-- The same filter applied to a nullable column: `NULL` never matches. -/
def optContainsCI (o : Option String) (pat : String) : Bool :=
  match o with
  | none => false
  | some s => containsCI s pat

/-! ## Data model (tables `forums`, `threads`, `replies`) -/

structure Forum where
  id : Nat
  name : String
deriving DecidableEq, Repr

structure Thread where
  id : Nat
  forumId : Nat
  title : String
  author : Option String
  content : String
  createdAt : Nat
deriving DecidableEq, Repr

structure Reply where
  id : Nat
  threadId : Nat
  author : Option String
  content : String
  createdAt : Nat
deriving DecidableEq, Repr

/-- The persistent state of the application: the three tables the route
module reads and writes. -/
structure Store where
  forums : List Forum
  threads : List Thread
  replies : List Reply
deriving DecidableEq, Repr

/-! ## `ORDER BY` — executable sorts

The database's order on equal keys is unspecified; the model fixes one
(insertion sort), which the claims never depend on. -/

/-- Insert into a list sorted by `key` descending. -/
def insertByDesc {α : Type} (key : α → Nat) (a : α) : List α → List α
  | [] => [a]
  | b :: bs => if key b < key a then a :: b :: bs else b :: insertByDesc key a bs

/-- Sort descending by `key` (models `orderBy: { … : "desc" }`). -/
def sortByDesc {α : Type} (key : α → Nat) : List α → List α
  | [] => []
  | a :: as => insertByDesc key a (sortByDesc key as)

/-- Insert into an ascending list of naturals. -/
def insertAscNat (a : Nat) : List Nat → List Nat
  | [] => [a]
  | b :: bs => if a < b then a :: b :: bs else b :: insertAscNat a bs

/-- Sort naturals ascending (models the numeric ordering `Object.keys`
gives to integer-like keys). -/
def sortAscNat : List Nat → List Nat
  | [] => []
  | a :: as => insertAscNat a (sortAscNat as)

/-! ## Pagination (`GET /f/:id` and `GET /thread/:id`)

Thread listing (`/f/:id`):
  `const page = Math.max(Number(req.query.page) || 1, 1)`
  `const offset = (page - 1) * limit`              with `limit = 10`
  `const totalPages = Math.max(Math.ceil(totalThreads / limit), 1)`

Reply listing (`/thread/:id`):
  `const page = Number(req.query.page) || 1`
  `const offset = (page - 1) * limit`              with `limit = 10`
  `const totalPages = Math.ceil(totalReplies / limit)` -/

def threadListPage (pageParam : Int) : Int :=
  jsMaxI (jsOrOne pageParam) 1

def threadListOffset (pageParam : Int) : Int :=
  (threadListPage pageParam - 1) * 10

def threadListTotalPages (totalThreads : Nat) : Nat :=
  jsMaxN (jsCeilDiv totalThreads 10) 1

def replyListPage (pageParam : Int) : Int :=
  jsOrOne pageParam

def replyListOffset (pageParam : Int) : Int :=
  (replyListPage pageParam - 1) * 10

def replyListTotalPages (totalReplies : Nat) : Nat :=
  jsCeilDiv totalReplies 10

/-- `prisma.forum.findUnique({ where: { id } })`. -/
def findForum (s : Store) (fid : Nat) : Option Forum :=
  s.forums.find? (fun f => f.id == fid)

/-- `prisma.thread.findUnique({ where: { id } })`. -/
def findThread (s : Store) (tid : Nat) : Option Thread :=
  s.threads.find? (fun t => t.id == tid)

/-- `prisma.thread.count({ where: { forumId } })`. -/
def countThreads (s : Store) (fid : Nat) : Nat :=
  (s.threads.filter (fun t => t.forumId == fid)).length

/-- `prisma.reply.count({ where: { threadId } })`. -/
def countReplies (s : Store) (tid : Nat) : Nat :=
  (s.replies.filter (fun r => r.threadId == tid)).length

/-- Outcome of a listing route, keeping the fields the claims are about. -/
inductive PageResponse where
  | notFound
  | redirect (forumId : Nat) (page : Nat)
  | render (currentPage : Int) (totalPages : Nat)
deriving DecidableEq, Repr

/-- `forum.get("/f/:id")`: forum lookup, pagination, redirect past the last
page, otherwise render. -/
def threadListHandler (s : Store) (fid : Nat) (pageParam : Int) : PageResponse :=
  match findForum s fid with
  | none => PageResponse.notFound
  | some _ =>
    let totalPages := threadListTotalPages (countThreads s fid)
    if (totalPages : Int) < threadListPage pageParam then
      PageResponse.redirect fid totalPages
    else
      PageResponse.render (threadListPage pageParam) totalPages

/-- `forum.get("/thread/:id")`: thread lookup, pagination without any
clamp or redirect, always rendering when the thread exists. -/
def threadViewHandler (s : Store) (tid : Nat) (pageParam : Int) : PageResponse :=
  match findThread s tid with
  | none => PageResponse.notFound
  | some _ =>
    PageResponse.render (replyListPage pageParam)
      (replyListTotalPages (countReplies s tid))

/-! ## Search (`GET /search?q=…`) -/

/-- One entry of the merged search result list: the owning thread's id, the
`matchesInThread` flag, and the grouped matching replies. -/
structure SearchResult where
  threadId : Nat
  matchesInThread : Bool
  replyMatches : List Reply
deriving DecidableEq, Repr

/-- The thread-side `WHERE`: title, content or author contains `q`
case-insensitively. -/
def threadMatchesQ (q : String) (t : Thread) : Bool :=
  containsCI t.title q || containsCI t.content q || optContainsCI t.author q

/-- The reply-side `WHERE`: content or author contains `q`
case-insensitively. -/
def replyMatchesQ (q : String) (r : Reply) : Bool :=
  containsCI r.content q || optContainsCI r.author q

/-- Step 1: `prisma.thread.findMany` — filter, newest first, `take: 20`. -/
def matchingThreadsOf (s : Store) (q : String) : List Thread :=
  (sortByDesc Thread.createdAt (s.threads.filter (threadMatchesQ q))).take 20

/-- Step 2: `prisma.reply.findMany` — filter, newest first, `take: 20`. -/
def matchingRepliesOf (s : Store) (q : String) : List Reply :=
  (sortByDesc Reply.createdAt (s.replies.filter (replyMatchesQ q))).take 20

/-- One step of building `repliesByThread`: push `r` onto the group of
`tid`, creating the group at the end when absent (JS object insertion). -/
def groupInsert (m : List (Nat × List Reply)) (tid : Nat) (r : Reply) :
    List (Nat × List Reply) :=
  match m with
  | [] => [(tid, [r])]
  | (k, rs) :: m2 =>
    if k = tid then (k, rs ++ [r]) :: m2 else (k, rs) :: groupInsert m2 tid r

/-- `repliesByThread`: group the matched replies by their `threadId`,
keeping the query-result order inside each group. -/
def repliesByThread (rs : List Reply) : List (Nat × List Reply) :=
  rs.foldl (fun m r => groupInsert m r.threadId r) []

/-- The reply-group mapping the search route builds for query `q`. -/
def groupsOf (s : Store) (q : String) : List (Nat × List Reply) :=
  repliesByThread (matchingRepliesOf s q)

/-- `repliesByThread[tid] || []`. -/
def lookupGroup (m : List (Nat × List Reply)) (tid : Nat) : List Reply :=
  match m.find? (fun p => p.1 == tid) with
  | some p => p.2
  | none => []

/-- `Object.keys(repliesByThread).map(Number).filter(tid => !matchingThreads
.some(t => t.id === tid))`; integer-like JS object keys enumerate in
ascending numeric order. -/
def missingIdsOf (s : Store) (q : String) : List Nat :=
  (sortAscNat ((groupsOf s q).map Prod.fst)).filter
    (fun tid => !((matchingThreadsOf s q).any (fun t => t.id == tid)))

/-- The whole `/search` handler: the result list, paired with the number
of store queries it issued (0 on the empty-query early return; the model
performs no store writes anywhere in this route). -/
def searchWithReads (s : Store) (q0 : String) : List SearchResult × Nat :=
  let q := jsTrim q0
  if q = "" then ([], 0)
  else
    let mts := matchingThreadsOf s q
    let groups := groupsOf s q
    let direct := mts.map (fun t => SearchResult.mk t.id true (lookupGroup groups t.id))
    let missing := missingIdsOf s q
    if missing.isEmpty then (direct, 2)
    else
      let missingThreads := s.threads.filter (fun t => decide (t.id ∈ missing))
      (direct ++ missingThreads.map
        (fun t => SearchResult.mk t.id false (lookupGroup groups t.id)), 3)

/-- The search results as rendered. -/
def search (s : Store) (q0 : String) : List SearchResult :=
  (searchWithReads s q0).1

/-! ## Deletion (`POST /thread/:id/delete`,
`POST /thread/:threadId/replies/:replyId/delete`) -/

/-- Delete a thread: 404 (`none`) when it does not exist, otherwise the
transaction `reply.deleteMany({ threadId })` + `thread.delete({ id })`. -/
def deleteThreadHandler (s : Store) (tid : Nat) : Option Store :=
  match findThread s tid with
  | none => none
  | some _ =>
    some { s with
      replies := s.replies.filter (fun r => !(r.threadId == tid)),
      threads := s.threads.filter (fun t => !(t.id == tid)) }

/-- Delete a reply: `reply.deleteMany({ where: { id: replyId, threadId } })`
— total, never an error, removes only rows matching both fields. -/
def deleteReplyHandler (s : Store) (tid rid : Nat) : Store :=
  { s with
    replies := s.replies.filter (fun r => !(r.id == rid && r.threadId == tid)) }

/-! ## Recent activity (`GET /new-posts`, raw SQL) -/

/-- `MAX` of an aggregated column: `NULL` on the empty group. -/
def aggMax : List Nat → Option Nat
  | [] => none
  | a :: as =>
    match aggMax as with
    | none => some a
    | some b => some (if a < b then b else a)

/-- The relevant output columns of one grouped row of the raw query. -/
structure ActivityRow where
  threadId : Nat
  threadCreatedAt : Nat
  forumId : Nat
  forumName : String
  replyCount : Nat
  lastReplyAt : Option Nat
  latestActivity : Nat
deriving DecidableEq, Repr

/-- One grouped row: `COUNT(r.id)`, `MAX(r.created_at)` and
`COALESCE(MAX(r.created_at), t.created_at)` over the replies of `t`. -/
def threadActivityRow (s : Store) (t : Thread) (f : Forum) : ActivityRow :=
  let rs := s.replies.filter (fun r => r.threadId == t.id)
  let last := aggMax (rs.map Reply.createdAt)
  { threadId := t.id
    threadCreatedAt := t.createdAt
    forumId := f.id
    forumName := f.name
    replyCount := rs.length
    lastReplyAt := last
    latestActivity := last.getD t.createdAt }

/-- `FROM threads t JOIN forums f ON f.id = t.forum_id LEFT JOIN replies r
ON r.thread_id = t.id GROUP BY t.id, f.id`: one row per thread and
matching forum (the left join to an empty reply set keeps the row). -/
def activityRows (s : Store) : List ActivityRow :=
  s.threads.flatMap
    (fun t => (s.forums.filter (fun f => f.id == t.forumId)).map
      (threadActivityRow s t))

/-- `ORDER BY latest_activity DESC LIMIT 40`. -/
def recentActivity (s : Store) : List ActivityRow :=
  (sortByDesc ActivityRow.latestActivity (activityRows s)).take 40

/-! ## `linkify` (`src/utils/linkfy.js`)

`text.replace(/(https?:\/\/[^\s]+)/g, url => '<a href="' + url +
'" target="_blank" rel="noopener noreferrer">' + url + '</a>')`. -/

/-- The replacement produced for one matched `url`. -/
def urlAnchor (url : List Char) : List Char :=
  "<a href=\"".toList ++ url ++
    "\" target=\"_blank\" rel=\"noopener noreferrer\">".toList ++ url ++
    "</a>".toList

/-- Try the regex `https?:\/\/[^\s]+` at the start of `s`: on success,
the (greedy, maximal) matched text and the remaining input. -/
def tryUrl (s : List Char) : Option (List Char × List Char) :=
  if s.take 8 = "https://".toList then
    if ((s.drop 8).takeWhile (fun c => !jsWhitespace c)).isEmpty then none
    else some ("https://".toList ++ (s.drop 8).takeWhile (fun c => !jsWhitespace c),
      (s.drop 8).dropWhile (fun c => !jsWhitespace c))
  else if s.take 7 = "http://".toList then
    if ((s.drop 7).takeWhile (fun c => !jsWhitespace c)).isEmpty then none
    else some ("http://".toList ++ (s.drop 7).takeWhile (fun c => !jsWhitespace c),
      (s.drop 7).dropWhile (fun c => !jsWhitespace c))
  else none

/-- The global-replace scan: at each position try the pattern; on a match
emit the anchor and resume after it, otherwise keep one character.  Each
step consumes at least one character, so fuel `s.length` is exact. -/
def linkifyGo : Nat → List Char → List Char
  | 0, s => s
  | fuel + 1, s =>
    match tryUrl s with
    | some (url, rest) => urlAnchor url ++ linkifyGo fuel rest
    | none =>
      match s with
      | [] => []
      | c :: cs => c :: linkifyGo fuel cs

/-- `linkify(text)`. -/
def linkify (text : String) : String :=
  String.mk (linkifyGo text.toList.length text.toList)

/-- Spec-side: does the regex match at the start of `t` — `https?://`
followed by at least one non-whitespace character? -/
def urlMatchStart (t : List Char) : Bool :=
  (decide (t.take 8 = "https://".toList) &&
    !((t.drop 8).takeWhile (fun c => !jsWhitespace c)).isEmpty) ||
  (decide (t.take 7 = "http://".toList) &&
    !((t.drop 7).takeWhile (fun c => !jsWhitespace c)).isEmpty)

/-- Spec-side: does the pattern match anywhere in `s`? -/
def hasUrlMatch (s : List Char) : Bool :=
  s.tails.any urlMatchStart

/-- Spec-side: the maximal runs of non-whitespace characters of `s`. -/
def nonWsRuns (s : List Char) : List (List Char) :=
  (s.foldr
    (fun c acc =>
      if jsWhitespace c then [] :: acc
      else
        match acc with
        | [] => [[c]]
        | r :: rs => (c :: r) :: rs)
    []).filter (fun r => !r.isEmpty)

/-- Spec-side: does a run begin with `http://` or `https://`? -/
def runBeginsUrl (r : List Char) : Bool :=
  decide (r.take 8 = "https://".toList) || decide (r.take 7 = "http://".toList)

/-! ## Concrete stores used by witnesses and counterexamples -/

/-- A store with one forum, one thread whose own text does not contain
"hello", and two replies whose content does (created at 11 and 12). -/
def demoStore : Store :=
  { forums := [⟨1, "F1"⟩]
    threads := [⟨1, 1, "T1", none, "c", 10⟩]
    replies := [⟨1, 1, none, "say hello world", 11⟩,
                ⟨2, 1, none, "hello again", 12⟩] }

/-- A store with 41 threads (ids and creation times 1..41), one forum and
no replies. -/
def wideStore : Store :=
  { forums := [⟨1, "F"⟩]
    threads := (List.range 41).map (fun i => ⟨i + 1, 1, "t", none, "c", i + 1⟩)
    replies := [] }

/-- A store with one forum, one thread and one reply on that thread. -/
def smallStore : Store :=
  { forums := [⟨1, "F"⟩]
    threads := [⟨1, 1, "T", none, "c", 1⟩]
    replies := [⟨1, 1, none, "r", 2⟩] }

/-- A store with one forum, one thread and no replies at all. -/
def noReplyStore : Store :=
  { forums := [⟨1, "F"⟩]
    threads := [⟨1, 1, "T", none, "c", 5⟩]
    replies := [] }

/-- A store whose single reply (id 1) belongs to thread 2. -/
def otherThreadStore : Store :=
  { forums := [⟨1, "F"⟩]
    threads := [⟨2, 1, "T", none, "c", 1⟩]
    replies := [⟨1, 2, none, "r", 2⟩] }

/-! ## Helper lemmas -/

theorem mem_insertByDesc {α : Type} (key : α → Nat) (a x : α) (l : List α) :
    x ∈ insertByDesc key a l ↔ x = a ∨ x ∈ l := by
  induction l with
  | nil => simp [insertByDesc]
  | cons b bs ih =>
    simp only [insertByDesc]
    split
    · simp
    · simp only [List.mem_cons, ih]
      tauto

theorem mem_sortByDesc {α : Type} (key : α → Nat) (x : α) (l : List α) :
    x ∈ sortByDesc key l ↔ x ∈ l := by
  induction l with
  | nil => simp [sortByDesc]
  | cons a as ih =>
    simp [sortByDesc, mem_insertByDesc, ih]

theorem length_insertByDesc {α : Type} (key : α → Nat) (a : α) (l : List α) :
    (insertByDesc key a l).length = l.length + 1 := by
  induction l with
  | nil => simp [insertByDesc]
  | cons b bs ih =>
    simp only [insertByDesc]
    split
    · simp
    · simp [ih]

theorem length_sortByDesc {α : Type} (key : α → Nat) (l : List α) :
    (sortByDesc key l).length = l.length := by
  induction l with
  | nil => rfl
  | cons a as ih =>
    simp [sortByDesc, length_insertByDesc, ih]

theorem mem_insertAscNat (a x : Nat) (l : List Nat) :
    x ∈ insertAscNat a l ↔ x = a ∨ x ∈ l := by
  induction l with
  | nil => simp [insertAscNat]
  | cons b bs ih =>
    simp only [insertAscNat]
    split
    · simp
    · simp only [List.mem_cons, ih]
      tauto

theorem mem_sortAscNat (x : Nat) (l : List Nat) :
    x ∈ sortAscNat l ↔ x ∈ l := by
  induction l with
  | nil => simp [sortAscNat]
  | cons a as ih =>
    simp [sortAscNat, mem_insertAscNat, ih]

theorem threadListTotalPages_pos (n : Nat) : 1 ≤ threadListTotalPages n := by
  unfold threadListTotalPages jsMaxN jsCeilDiv
  split <;> omega

/-! ## Claim C1 — pagination -/

/-- C1 (counterexample): the reply-listing flow does not use the claimed
formulas: with `totalCount = 0`, `pageSize = 10` it computes `totalPages =
0`, not `max(ceil(0/10), 1) = 1`, and for `requestedPage = -5` it keeps
`effectivePage = -5`, not `max(-5, 1) = 1`. -/
theorem replyFlow_pagination_cex :
    replyListTotalPages 0 = 0 ∧ replyListTotalPages 0 ≠ 1 ∧
    replyListPage (-5) = -5 ∧ replyListPage (-5) ≠ 1 := by
  decide

/-- C1 (amended): the thread-listing flow computes `effectivePage =
max(requestedPage, 1)`, `offset = (effectivePage - 1) * pageSize` and
`totalPages = max(ceil(totalCount / pageSize), 1)` (characterised as the
least page count covering `max(totalCount, 1)` rows at 10 per page), with
`paginate(0, 10, 1) = {1, 0, 1}`; the reply-listing flow instead computes
`totalPages = ceil(totalCount / pageSize)` without the lower bound of 1
and keeps the requested page unclamped (only `0` is coerced to `1`). -/
theorem pagination_flows (n : Nat) (p : Int) :
    threadListPage p = max p 1 ∧
    threadListOffset p = (max p 1 - 1) * 10 ∧
    n ≤ 10 * threadListTotalPages n ∧
    10 * (threadListTotalPages n - 1) < max n 1 ∧
    threadListPage 1 = 1 ∧ threadListOffset 1 = 0 ∧
    threadListTotalPages 0 = 1 ∧
    n ≤ 10 * replyListTotalPages n ∧
    10 * replyListTotalPages n < n + 10 ∧
    replyListTotalPages 0 = 0 ∧
    replyListPage (-5) = -5 ∧ replyListPage 0 = 1 := by
  have hpage : threadListPage p = max p 1 := by
    unfold threadListPage jsMaxI jsOrOne
    split_ifs <;> omega
  refine ⟨hpage, ?_, ?_, ?_, by decide, by decide, by decide, ?_, ?_,
    by decide, by decide, by decide⟩
  · unfold threadListOffset
    rw [hpage]
  · unfold threadListTotalPages jsMaxN jsCeilDiv
    split_ifs <;> omega
  · unfold threadListTotalPages jsMaxN jsCeilDiv
    split_ifs <;> omega
  · unfold replyListTotalPages jsCeilDiv
    omega
  · unfold replyListTotalPages jsCeilDiv
    omega

/-! ## Claim C4 — end-to-end search scenario -/

/-- C4 (counterexample): on a store with one forum, one thread whose own
text does not contain "hello", and two replies containing "hello" created
at 11 and 12, `search("hello")` returns one result with `matchesInThread
= false` and two reply matches — but ordered `[12, 11]`, newest first,
not oldest first as the claim states. -/
theorem search_hello_cex :
    (search demoStore "hello").map
      (fun r => (r.threadId, r.matchesInThread, r.replyMatches.map Reply.createdAt))
      = [(1, false, [12, 11])] ∧
    demoStore.threads.map Thread.createdAt = [10] ∧
    ¬ List.Sorted (fun a b => a ≤ b)
      ((search demoStore "hello").flatMap (fun r => r.replyMatches.map Reply.createdAt)) := by
  decide

/-- C4 (amended): in the scenario of the claim, `search("hello")` returns
exactly one result, with `matchesInThread` false and `replyMatches` of
length 2 ordered newest-first (descending `createdAt`), since the reply
query fetches `orderBy: { createdAt: "desc" }` and grouping preserves
that order. -/
theorem search_hello_scenario :
    search demoStore "hello" =
      [⟨1, false, [⟨2, 1, none, "hello again", 12⟩,
                   ⟨1, 1, none, "say hello world", 11⟩]⟩] ∧
    (search demoStore "hello").map
      (fun r => r.replyMatches.map Reply.createdAt) = [[12, 11]] ∧
    List.Sorted (fun a b => b ≤ a)
      ((search demoStore "hello").flatMap (fun r => r.replyMatches.map Reply.createdAt)) := by
  decide

/-! ## Claim C5 — empty and whitespace-only queries -/

/-- C5: a query that is empty after trimming (so the empty string and
every whitespace-only string) yields the empty result list and zero store
queries; the search route performs no store writes in any branch. -/
theorem search_empty_query (s : Store) (q : String) (hq : jsTrim q = "") :
    searchWithReads s q = ([], 0) := by
  simp [searchWithReads, hq]

/-- C5 witness: the whitespace-only query `"   "`. -/
theorem search_empty_query_witness :
    searchWithReads demoStore "   " = ([], 0) :=
  search_empty_query demoStore "   " (by decide)

/-! ## Claim C7 — thread deletion and nonexistent-reply deletion -/

/-- C7: when deleting an existing thread (with replies) succeeds, the new
store has no reply with that thread id and no thread with that id; and
deleting a reply id that exists nowhere leaves the store unchanged (the
operation is total — it signals no error). -/
theorem delete_thread_then_missing_reply (s s2 : Store) (tid rid : Nat)
    (hdel : deleteThreadHandler s tid = some s2)
    (hhas : ∃ r ∈ s.replies, r.threadId = tid)
    (hnorid : ∀ r ∈ s.replies, r.id ≠ rid) :
    s2.replies.filter (fun r => r.threadId == tid) = [] ∧
    findThread s2 tid = none ∧
    deleteReplyHandler s tid rid = s := by
  clear hhas
  unfold deleteThreadHandler at hdel
  cases hfind : findThread s tid with
  | none =>
    rw [hfind] at hdel
    exact absurd hdel (by simp)
  | some t =>
    rw [hfind] at hdel
    simp only [Option.some.injEq] at hdel
    subst hdel
    refine ⟨?_, ?_, ?_⟩
    · rw [List.filter_eq_nil_iff]
      intro r hr
      have h2 := (List.mem_filter.mp hr).2
      simp only [Bool.not_eq_true'] at h2
      simp [h2]
    · unfold findThread
      rw [List.find?_eq_none]
      intro t2 ht2
      have h2 := (List.mem_filter.mp ht2).2
      simp only [Bool.not_eq_true'] at h2
      simp [h2]
    · unfold deleteReplyHandler
      have hfix : s.replies.filter (fun r => !(r.id == rid && r.threadId == tid))
          = s.replies := by
        rw [List.filter_eq_self]
        intro r hr
        have := hnorid r hr
        simp [this]
      rw [hfix]

/-- C7 witness: deleting thread 1 of `smallStore` (which has one reply)
empties both tables, and deleting the nonexistent reply id 99 is a no-op. -/
theorem delete_thread_then_missing_reply_witness :
    (Store.mk [⟨1, "F"⟩] [] []).replies.filter (fun r => r.threadId == 1) = [] ∧
    findThread (Store.mk [⟨1, "F"⟩] [] []) 1 = none ∧
    deleteReplyHandler smallStore 1 99 = smallStore :=
  delete_thread_then_missing_reply smallStore (Store.mk [⟨1, "F"⟩] [] []) 1 99
    (by decide) (by decide) (by decide)

/-! ## Claim C8 — redirect asymmetry between the two listing flows -/

/-- C8: when the requested page exceeds the flow's total page count, the
thread-listing flow redirects to the last page, while the reply-listing
flow applies no clamp and renders with the requested page as given. -/
theorem clamp_asymmetry (s : Store) (fid tid : Nat) (p : Int)
    (hf : (findForum s fid).isSome)
    (ht : (findThread s tid).isSome)
    (h1 : (threadListTotalPages (countThreads s fid) : Int) < p)
    (h2 : (replyListTotalPages (countReplies s tid) : Int) < p) :
    threadListHandler s fid p =
      PageResponse.redirect fid (threadListTotalPages (countThreads s fid)) ∧
    threadViewHandler s tid p =
      PageResponse.render p (replyListTotalPages (countReplies s tid)) := by
  have htp : (1 : Int) ≤ (threadListTotalPages (countThreads s fid) : Int) := by
    have := threadListTotalPages_pos (countThreads s fid)
    omega
  have hp1 : (2 : Int) ≤ p := by omega
  have hpage : threadListPage p = p := by
    unfold threadListPage jsMaxI jsOrOne
    split_ifs <;> omega
  have hrpage : replyListPage p = p := by
    unfold replyListPage jsOrOne
    split_ifs <;> omega
  constructor
  · unfold threadListHandler
    cases hff : findForum s fid with
    | none => rw [hff] at hf; simp at hf
    | some f =>
      simp only [hpage]
      rw [if_pos h1]
  · unfold threadViewHandler
    cases htt : findThread s tid with
    | none => rw [htt] at ht; simp at ht
    | some t =>
      simp only [hrpage]

/-- C8 witness: `smallStore`, forum 1 (1 thread), thread 1 (1 reply),
requested page 5: the thread listing redirects to page 1, the thread view
renders page 5 of 1. -/
theorem clamp_asymmetry_witness :
    threadListHandler smallStore 1 5 = PageResponse.redirect 1 1 ∧
    threadViewHandler smallStore 1 5 = PageResponse.render 5 1 :=
  clamp_asymmetry smallStore 1 1 5 (by decide) (by decide) (by decide) (by decide)

/-! ## Claim C9 — delete-reply frame condition -/

/-- C9: the delete-reply operation removes exactly the replies whose id is
`rid` and whose thread id is `tid`, touching no other table; when the
reply with that id belongs to a different thread, the store is unchanged. -/
theorem delete_reply_exact (s : Store) (tid rid : Nat) :
    ((deleteReplyHandler s tid rid).forums = s.forums ∧
     (deleteReplyHandler s tid rid).threads = s.threads ∧
     (∀ r, r ∈ (deleteReplyHandler s tid rid).replies ↔
        r ∈ s.replies ∧ ¬(r.id = rid ∧ r.threadId = tid))) ∧
    ((∀ r ∈ s.replies, r.id = rid → r.threadId ≠ tid) →
      deleteReplyHandler s tid rid = s) := by
  constructor
  · refine ⟨rfl, rfl, ?_⟩
    intro r
    unfold deleteReplyHandler
    simp only [List.mem_filter, Bool.not_eq_true', Bool.and_eq_false_iff,
      beq_eq_false_iff_ne, ne_eq, beq_iff_eq]
    tauto
  · intro h
    unfold deleteReplyHandler
    have hfix : s.replies.filter (fun r => !(r.id == rid && r.threadId == tid))
        = s.replies := by
      rw [List.filter_eq_self]
      intro r hr
      by_cases hid : r.id = rid
      · have := h r hr hid
        simp [this]
      · simp [hid]
    rw [hfix]

/-- C9 witness: in `otherThreadStore` reply 1 belongs to thread 2, so
deleting reply 1 under thread 3 changes nothing. -/
theorem delete_reply_exact_witness :
    deleteReplyHandler otherThreadStore 3 1 = otherThreadStore :=
  (delete_reply_exact otherThreadStore 3 1).2 (by decide)

/-! ## Claim C10 — linkify -/

theorem tryUrl_eq_none_of_no_match (s : List Char) (h : urlMatchStart s = false) :
    tryUrl s = none := by
  unfold urlMatchStart at h
  unfold tryUrl
  rw [Bool.or_eq_false_iff, Bool.and_eq_false_iff, Bool.and_eq_false_iff] at h
  obtain ⟨h1, h2⟩ := h
  split_ifs with ha hb hc hd
  · rfl
  · exfalso
    rcases h1 with h1 | h1
    · rw [decide_eq_false_iff_not] at h1
      exact h1 ha
    · rw [Bool.not_eq_false'] at h1
      exact hb h1
  · rfl
  · exfalso
    rcases h2 with h2 | h2
    · rw [decide_eq_false_iff_not] at h2
      exact h2 hc
    · rw [Bool.not_eq_false'] at h2
      exact hd h2
  · rfl

theorem hasUrlMatch_cons (c : Char) (cs : List Char)
    (h : hasUrlMatch (c :: cs) = false) :
    urlMatchStart (c :: cs) = false ∧ hasUrlMatch cs = false := by
  unfold hasUrlMatch at h ⊢
  rw [List.tails_cons, List.any_cons, Bool.or_eq_false_iff] at h
  exact h

theorem linkifyGo_no_match (fuel : Nat) (s : List Char)
    (h : hasUrlMatch s = false) : linkifyGo fuel s = s := by
  induction fuel generalizing s with
  | zero => rfl
  | succ n ih =>
    have h0 : urlMatchStart s = false := by
      cases s with
      | nil => decide
      | cons c cs => exact (hasUrlMatch_cons c cs h).1
    have hnone := tryUrl_eq_none_of_no_match s h0
    cases s with
    | nil => simp only [linkifyGo, hnone]
    | cons c cs =>
      simp only [linkifyGo, hnone]
      rw [ih cs (hasUrlMatch_cons c cs h).2]

/-- C10 (counterexample): `"xhttp://a"` contains no maximal non-whitespace
run beginning with `http://` or `https://` (its only run is the whole
string), yet `linkify` does not return it verbatim — the regex matches
mid-run. -/
theorem linkify_midrun_cex :
    (nonWsRuns "xhttp://a".toList).any runBeginsUrl = false ∧
    linkify "xhttp://a" ≠ "xhttp://a" ∧
    linkify "xhttp://a" =
      "x<a href=\"http://a\" target=\"_blank\" rel=\"noopener noreferrer\">http://a</a>" := by
  refine ⟨by decide, by decide, by decide⟩

/-- C10 (amended): `linkify` replaces each leftmost non-overlapping
occurrence of `http://` or `https://` followed by at least one
non-whitespace character (the match extending to the end of the
non-whitespace run) with the anchor tag, and such an occurrence may begin
in the middle of a non-whitespace run; in particular, for every input in
which no position starts such an occurrence, `linkify` returns the input
verbatim. -/
theorem linkify_no_url_id (text : String) (h : hasUrlMatch text.toList = false) :
    linkify text = text := by
  unfold linkify
  rw [linkifyGo_no_match _ _ h]
  cases text with
  | mk d => rfl

/-- C10 witness: an input without the pattern is returned verbatim. -/
theorem linkify_no_url_id_witness : linkify "no links here, move along" = "no links here, move along" :=
  linkify_no_url_id "no links here, move along" (by decide)

/-! ## Claim C6 — recent-activity rows for threads without replies -/

/-- C6 (counterexample): in a store with 41 threads (no replies), thread 1
— which has zero replies — gets no row at all in the recent-activity
feed: the `LIMIT 40` drops it, although the outer join kept it in the
aggregation. -/
theorem activity_limit_cex :
    (∃ t ∈ wideStore.threads, t.id = 1 ∧
      wideStore.replies.filter (fun r => r.threadId == t.id) = []) ∧
    (∀ row ∈ recentActivity wideStore, row.threadId ≠ 1) ∧
    (∃ row ∈ activityRows wideStore, row.threadId = 1) := by
  refine ⟨by decide, by decide, by decide⟩

/-- C6 (amended): for every thread of an existing forum with zero replies,
the aggregation underlying the recent-activity feed contains a row for it
with `replyCount = 0`, `lastReplyAt = NULL` and `latestActivity =
thread.createdAt` (the outer join to the empty reply set drops nothing
and the `COALESCE` falls back to the thread's creation time); the row
appears in the feed itself whenever the aggregation has at most 40 rows —
beyond that the `LIMIT 40` may cut it. -/
theorem recentActivity_zero_replies (s : Store) (t : Thread) (f : Forum)
    (ht : t ∈ s.threads) (hf : f ∈ s.forums) (hfid : f.id = t.forumId)
    (hr : s.replies.filter (fun r => r.threadId == t.id) = [])
    (hlen : (activityRows s).length ≤ 40) :
    ∃ row ∈ recentActivity s, row.threadId = t.id ∧ row.replyCount = 0 ∧
      row.latestActivity = t.createdAt ∧ row.lastReplyAt = none := by
  refine ⟨threadActivityRow s t f, ?_, ?_, ?_, ?_, ?_⟩
  · unfold recentActivity
    rw [List.take_of_length_le (by rw [length_sortByDesc]; exact hlen)]
    rw [mem_sortByDesc]
    unfold activityRows
    rw [List.mem_flatMap]
    refine ⟨t, ht, List.mem_map.mpr ⟨f, List.mem_filter.mpr ⟨hf, by simp [hfid]⟩, rfl⟩⟩
  · rfl
  · show (s.replies.filter (fun r => r.threadId == t.id)).length = 0
    rw [hr]
    rfl
  · show (aggMax ((s.replies.filter (fun r => r.threadId == t.id)).map
      Reply.createdAt)).getD t.createdAt = t.createdAt
    rw [hr]
    rfl
  · show aggMax ((s.replies.filter (fun r => r.threadId == t.id)).map
      Reply.createdAt) = none
    rw [hr]
    rfl

/-- C6 witness: the one-thread, zero-reply store. -/
theorem recentActivity_zero_replies_witness :
    ∃ row ∈ recentActivity noReplyStore, row.threadId = 1 ∧ row.replyCount = 0 ∧
      row.latestActivity = 5 ∧ row.lastReplyAt = none :=
  recentActivity_zero_replies noReplyStore ⟨1, 1, "T", none, "c", 5⟩ ⟨1, "F"⟩
    (by decide) (by decide) (by decide) (by decide) (by decide)

/-! ## Search lemmas -/

theorem groupInsert_vals_ne_nil (m : List (Nat × List Reply)) (tid : Nat)
    (r : Reply) (h : ∀ p ∈ m, p.2 ≠ []) :
    ∀ p ∈ groupInsert m tid r, p.2 ≠ [] := by
  induction m with
  | nil =>
    intro p hp
    simp only [groupInsert, List.mem_singleton] at hp
    subst hp
    simp
  | cons q m2 ih =>
    obtain ⟨k, rs⟩ := q
    intro p hp
    simp only [groupInsert] at hp
    split at hp
    · rcases List.mem_cons.mp hp with h1 | h1
      · subst h1; simp
      · exact h p (List.mem_cons_of_mem _ h1)
    · rcases List.mem_cons.mp hp with h1 | h1
      · subst h1
        exact h (k, rs) (List.mem_cons_self _ _)
      · exact ih (fun p2 hp2 => h p2 (List.mem_cons_of_mem _ hp2)) p h1

theorem repliesByThread_go_vals (rs : List Reply) (m : List (Nat × List Reply))
    (h : ∀ p ∈ m, p.2 ≠ []) :
    ∀ p ∈ rs.foldl (fun m2 r => groupInsert m2 r.threadId r) m, p.2 ≠ [] := by
  induction rs generalizing m with
  | nil => simpa using h
  | cons r rs2 ih =>
    simp only [List.foldl_cons]
    exact ih _ (groupInsert_vals_ne_nil m r.threadId r h)

theorem repliesByThread_vals (rs : List Reply) :
    ∀ p ∈ repliesByThread rs, p.2 ≠ [] :=
  repliesByThread_go_vals rs [] (by simp)

theorem lookupGroup_ne_nil (m : List (Nat × List Reply)) (tid : Nat)
    (hvals : ∀ p ∈ m, p.2 ≠ []) (hk : tid ∈ m.map Prod.fst) :
    lookupGroup m tid ≠ [] := by
  obtain ⟨p, hp, hpf⟩ := List.mem_map.mp hk
  unfold lookupGroup
  cases hfind : m.find? (fun p2 => p2.1 == tid) with
  | none =>
    rw [List.find?_eq_none] at hfind
    exact absurd (by simp [hpf]) (hfind p hp)
  | some p2 =>
    exact hvals p2 (List.mem_of_find?_eq_some hfind)

theorem mem_keys_groupInsert (m : List (Nat × List Reply)) (t : Nat) (r : Reply)
    (tid : Nat) :
    tid ∈ (groupInsert m t r).map Prod.fst ↔ tid = t ∨ tid ∈ m.map Prod.fst := by
  induction m with
  | nil => simp [groupInsert]
  | cons q m2 ih =>
    obtain ⟨k, rs⟩ := q
    simp only [groupInsert]
    split
    · next hkt =>
      subst hkt
      simp only [List.map_cons, List.mem_cons]
      tauto
    · simp only [List.map_cons, List.mem_cons, ih]
      tauto

theorem mem_keys_repliesByThread_go (rs : List Reply) (m : List (Nat × List Reply))
    (tid : Nat) :
    tid ∈ (rs.foldl (fun m2 r => groupInsert m2 r.threadId r) m).map Prod.fst ↔
      tid ∈ m.map Prod.fst ∨ ∃ r ∈ rs, r.threadId = tid := by
  induction rs generalizing m with
  | nil => simp
  | cons r rs2 ih =>
    simp only [List.foldl_cons, ih, mem_keys_groupInsert, List.mem_cons]
    constructor
    · rintro ((h | h) | ⟨r2, hr2, he⟩)
      · exact Or.inr ⟨r, Or.inl rfl, h.symm⟩
      · exact Or.inl h
      · exact Or.inr ⟨r2, Or.inr hr2, he⟩
    · rintro (h | ⟨r2, (h2 | h2), he⟩)
      · exact Or.inl (Or.inr h)
      · subst h2
        exact Or.inl (Or.inl he.symm)
      · exact Or.inr ⟨r2, h2, he⟩

theorem mem_keys_repliesByThread (rs : List Reply) (tid : Nat) :
    tid ∈ (repliesByThread rs).map Prod.fst ↔ ∃ r ∈ rs, r.threadId = tid := by
  unfold repliesByThread
  rw [mem_keys_repliesByThread_go]
  simp

/-- The `/search` results on a non-empty (trimmed) query: the direct
thread matches followed by the orphan entries; when there is no orphan
the second block is empty and the `missingThreadIds.length > 0` guard in
the route changes nothing. -/
theorem search_eq (s : Store) (q : String) (hq : jsTrim q ≠ "") :
    search s q =
      (matchingThreadsOf s (jsTrim q)).map
        (fun t => SearchResult.mk t.id true (lookupGroup (groupsOf s (jsTrim q)) t.id)) ++
      (s.threads.filter (fun t => decide (t.id ∈ missingIdsOf s (jsTrim q)))).map
        (fun t => SearchResult.mk t.id false (lookupGroup (groupsOf s (jsTrim q)) t.id)) := by
  unfold search searchWithReads
  simp only [if_neg hq]
  by_cases hm : (missingIdsOf s (jsTrim q)).isEmpty
  · simp only [hm, if_pos]
    have hnil : missingIdsOf s (jsTrim q) = [] := List.isEmpty_iff.mp hm
    rw [hnil]
    simp
  · simp only [hm]
    rfl

/-! ## Claim C2 — orphan results carry at least one reply match -/

/-- C2: for every query and store state, every search result whose
`matchesInThread` flag is false has a non-empty `replyMatches` list (such
entries exist only for keys of the reply-group mapping, whose groups are
never empty). -/
theorem search_orphan_has_reply (s : Store) (q : String) (res : SearchResult)
    (hres : res ∈ search s q) (hm : res.matchesInThread = false) :
    res.replyMatches ≠ [] := by
  by_cases hq : jsTrim q = ""
  · have hempty : search s q = [] := by
      unfold search
      rw [search_empty_query s q hq]
    rw [hempty] at hres
    simp at hres
  · rw [search_eq s q hq] at hres
    rcases List.mem_append.mp hres with h | h
    · obtain ⟨t, ht, he⟩ := List.mem_map.mp h
      rw [← he] at hm
      simp at hm
    · obtain ⟨t, ht, he⟩ := List.mem_map.mp h
      have htid : t.id ∈ missingIdsOf s (jsTrim q) :=
        of_decide_eq_true (List.mem_filter.mp ht).2
      have hkeys : t.id ∈ (groupsOf s (jsTrim q)).map Prod.fst := by
        unfold missingIdsOf at htid
        have h2 := (List.mem_filter.mp htid).1
        rwa [mem_sortAscNat] at h2
      have hne := lookupGroup_ne_nil (groupsOf s (jsTrim q)) t.id
        (repliesByThread_vals (matchingRepliesOf s (jsTrim q))) hkeys
      rw [← he]
      exact hne

/-- C2 witness: the orphan result of `search demoStore "hello"`. -/
theorem search_orphan_has_reply_witness :
    (SearchResult.mk 1 false [⟨2, 1, none, "hello again", 12⟩,
      ⟨1, 1, none, "say hello world", 11⟩]).replyMatches ≠ [] :=
  search_orphan_has_reply demoStore "hello"
    (SearchResult.mk 1 false [⟨2, 1, none, "hello again", 12⟩,
      ⟨1, 1, none, "say hello world", 11⟩])
    (by decide) (by decide)

/-! ## Claim C3 — the result id set is the union of the two match sources -/

/-- C3: on a non-empty (trimmed) query, in a store satisfying the
referential-integrity constraint `replies.thread_id → threads.id` that
the schema enforces, the thread ids appearing in the search results are
exactly the ids of the directly matched threads (step-1 query) together
with the keys of the reply-group mapping. -/
theorem search_ids_union (s : Store) (q : String) (hq : jsTrim q ≠ "")
    (hFK : ∀ r ∈ s.replies, ∃ t ∈ s.threads, t.id = r.threadId) (tid : Nat) :
    tid ∈ (search s q).map SearchResult.threadId ↔
      (tid ∈ (matchingThreadsOf s (jsTrim q)).map Thread.id ∨
       tid ∈ (groupsOf s (jsTrim q)).map Prod.fst) := by
  rw [search_eq s q hq, List.map_append]
  constructor
  · intro h
    rcases List.mem_append.mp h with h | h
    · left
      obtain ⟨res, hres, he⟩ := List.mem_map.mp h
      obtain ⟨t, ht, he2⟩ := List.mem_map.mp hres
      refine List.mem_map.mpr ⟨t, ht, ?_⟩
      rw [← he2] at he
      exact he
    · right
      obtain ⟨res, hres, he⟩ := List.mem_map.mp h
      obtain ⟨t, ht, he2⟩ := List.mem_map.mp hres
      have htid : t.id ∈ missingIdsOf s (jsTrim q) :=
        of_decide_eq_true (List.mem_filter.mp ht).2
      have hkeys : t.id ∈ (groupsOf s (jsTrim q)).map Prod.fst := by
        unfold missingIdsOf at htid
        have h2 := (List.mem_filter.mp htid).1
        rwa [mem_sortAscNat] at h2
      rw [← he2] at he
      have he3 : t.id = tid := he
      rw [← he3]
      exact hkeys
  · intro h
    rcases h with h | h
    · obtain ⟨t, ht, he⟩ := List.mem_map.mp h
      refine List.mem_append.mpr (Or.inl ?_)
      exact List.mem_map.mpr
        ⟨SearchResult.mk t.id true (lookupGroup (groupsOf s (jsTrim q)) t.id),
          List.mem_map.mpr ⟨t, ht, rfl⟩, he⟩
    · by_cases hdir : tid ∈ (matchingThreadsOf s (jsTrim q)).map Thread.id
      · obtain ⟨t, ht, he⟩ := List.mem_map.mp hdir
        refine List.mem_append.mpr (Or.inl ?_)
        exact List.mem_map.mpr
          ⟨SearchResult.mk t.id true (lookupGroup (groupsOf s (jsTrim q)) t.id),
            List.mem_map.mpr ⟨t, ht, rfl⟩, he⟩
      · have hmiss : tid ∈ missingIdsOf s (jsTrim q) := by
          unfold missingIdsOf
          refine List.mem_filter.mpr ⟨?_, ?_⟩
          · rw [mem_sortAscNat]
            exact h
          · rw [Bool.not_eq_true', List.any_eq_false]
            intro t ht hcontra
            rw [beq_iff_eq] at hcontra
            exact hdir (List.mem_map.mpr ⟨t, ht, hcontra⟩)
        have hkeys : ∃ r ∈ matchingRepliesOf s (jsTrim q), r.threadId = tid :=
          (mem_keys_repliesByThread (matchingRepliesOf s (jsTrim q)) tid).mp h
        obtain ⟨r, hr, hrt⟩ := hkeys
        have hr2 : r ∈ s.replies := by
          unfold matchingRepliesOf at hr
          have hmem := List.mem_of_mem_take hr
          rw [mem_sortByDesc] at hmem
          exact (List.mem_filter.mp hmem).1
        obtain ⟨t, ht, hid⟩ := hFK r hr2
        refine List.mem_append.mpr (Or.inr ?_)
        refine List.mem_map.mpr
          ⟨SearchResult.mk t.id false (lookupGroup (groupsOf s (jsTrim q)) t.id),
            List.mem_map.mpr ⟨t, ?_, rfl⟩, ?_⟩
        · refine List.mem_filter.mpr ⟨ht, ?_⟩
          rw [decide_eq_true_eq, hid, hrt]
          exact hmiss
        · show t.id = tid
          rw [hid, hrt]

/-- C3 witness: `demoStore` with query "hello" and thread id 1. -/
theorem search_ids_union_witness :
    1 ∈ (search demoStore "hello").map SearchResult.threadId ↔
      (1 ∈ (matchingThreadsOf demoStore (jsTrim "hello")).map Thread.id ∨
       1 ∈ (groupsOf demoStore (jsTrim "hello")).map Prod.fst) :=
  search_ids_union demoStore "hello" (by decide) (by decide) 1
